import Mathlib

/-!
Verification of the `pstate` system call of the xv6 process-state
repository (kernel/proc.c, `sys_pstate`), against its natural-language
specification.

The shallow embedding models the process table as a fixed-capacity array of
process control blocks (`Fin n → Proc n`, `n` playing the role of `NPROC`),
and the CPU array as `Fin m → Option (Fin n)` (`m` playing the role of
`NCPU`, each entry the nullable pointer `cpus[i].proc`, represented as the
slot index it points to).  `sys_pstate` is translated line by line from the
source into a pure function returning the list of printed lines together
with the returned status code; the lock/print sequencing of the loop body is
modelled separately as an event trace (`pstateTrace`).
-/

namespace Pstate

/-- Process states of xv6 (`enum procstate` in kernel/proc.h). -/
inductive ProcState where
  | UNUSED
  | USED
  | SLEEPING
  | RUNNABLE
  | RUNNING
  | ZOMBIE
deriving DecidableEq

/-- One process control block (`struct proc`), restricted to the fields
`sys_pstate` reads: `pid`, `state`, `name`, and the `parent` pointer.  A
parent pointer is either null (`none`) or points at a table slot
(`some i`). -/
structure Proc (n : Nat) where
  pid : Int
  state : ProcState
  name : String
  parent : Option (Fin n)
deriving DecidableEq

/-- The state `sys_pstate` reads: the process table `proc[NPROC]` and the
per-CPU current-process pointers `cpus[i].proc`. -/
structure SysState (n m : Nat) where
  procs : Fin n → Proc n
  cpus : Fin m → Option (Fin n)

/-- The filter condition of the loop body:
`p->state == SLEEPING || p->state == RUNNING || p->state == RUNNABLE`. -/
def activeState (st : ProcState) : Bool :=
  st == ProcState.SLEEPING || st == ProcState.RUNNING || st == ProcState.RUNNABLE

/-- Modelled from the spec: the display-label array `pstate_states` is
referenced by `sys_pstate` (`pstate_states[p->state]`) but its definition is
not part of the provided source.  The spec describes it as "a fixed total
function from the three active states to their display strings", and the
sample output shows the labels `SLEEPING`, `RUNNABLE`, `RUNNING`; all other
states are filtered out before the mapping is consulted, so their labels are
irrelevant and modelled as the empty string. -/
def pstate_states : ProcState → String
  | ProcState.SLEEPING => "SLEEPING"
  | ProcState.RUNNABLE => "RUNNABLE"
  | ProcState.RUNNING => "RUNNING"
  | _ => ""

/-- Resolution of `parent_name` in the loop body: initialised to `"???"`,
overwritten with the literal `"(init)"` when `p->pid == 1`, otherwise with
`p->parent->name` when the parent pointer is non-null. -/
def parent_name (s : SysState n m) (p : Proc n) : String :=
  if p.pid = 1 then "(init)"
  else
    match p.parent with
    | some j => (s.procs j).name
    | none => "???"

/-- The row printed for one active process:
`printf("%d\t%s\t\t%s\t%s\n", p->pid, pstate_states[p->state], p->name, parent_name)`. -/
def procRow (s : SysState n m) (p : Proc n) : String :=
  toString p.pid ++ "\t" ++ pstate_states p.state ++ "\t\t" ++ p.name ++ "\t" ++
    parent_name s p

/-- One iteration of the table loop, acting on the accumulator
`(total_processes, lines printed so far)`: when the state of the slot is
active the counter is incremented and the row of the slot is printed; else the
accumulator is unchanged. -/
def passStep (s : SysState n m) (acc : Nat × List String) (i : Fin n) :
    Nat × List String :=
  if activeState (s.procs i).state then
    (acc.1 + 1, acc.2 ++ [procRow s (s.procs i)])
  else acc

/-- The full table pass `for(p = proc; p < &proc[NPROC]; p++)`, returning
the final `total_processes` counter and the row lines in slot order. -/
def procPass (s : SysState n m) : Nat × List String :=
  (List.finRange n).foldl (passStep s) (0, [])

/-- The line printed for CPU `i`:
`cpu <i>: running process <pid>` when `cpus[i].proc` is non-null (the pid
being read through the pointer), `cpu <i>: idle` when it is null. -/
def cpuLine (s : SysState n m) (i : Fin m) : String :=
  match s.cpus i with
  | some j => "cpu " ++ toString i.val ++ ": running process " ++ toString (s.procs j).pid
  | none => "cpu " ++ toString i.val ++ ": idle"

/-- The whole of `sys_pstate`: the list of printed lines (header, one row
per active slot in slot order, the `total:` line, one line per CPU in index
order) paired with the returned value `0`. -/
def sys_pstate (s : SysState n m) : List String × Nat :=
  ("pid\tstate\t\tname\tparent" ::
      ((procPass s).2 ++
        (("total: " ++ toString (procPass s).1) ::
          (List.finRange m).map (cpuLine s))),
    0)

/-- The slot indices whose state passes the active filter, in slot order. -/
def activeIdx (s : SysState n m) : List (Fin n) :=
  (List.finRange n).filter (fun i => activeState (s.procs i).state)

/-- Report lines as the spec describes them: a header line naming the
columns, then one line `<pid>\t<state>\t\t<name>\t<parent>` per active
process in table-slot order, then `total: <count>` where the count is the
number of rows, then one line per CPU in index order. -/
def specReportLines (s : SysState n m) : List String :=
  ["pid\tstate\t\tname\tparent"] ++
    (activeIdx s).map (fun i => procRow s (s.procs i)) ++
    (("total: " ++ toString ((activeIdx s).map (fun i => procRow s (s.procs i))).length) ::
      (List.finRange m).map (cpuLine s))

/-- Observable lock/print events of one `sys_pstate` call: `acquire i` and
`release i` are `acquire(&p->lock)` / `release(&p->lock)` for slot `i`, and
`print line` is one `printf` emitting `line`. -/
inductive Event (n : Nat) where
  | acquire (i : Fin n)
  | release (i : Fin n)
  | print (line : String)
deriving DecidableEq

/-- Event sequence of one iteration of the table loop: acquire the lock of
the slot, print the row of the slot when its state is active, release the
lock. -/
def slotTrace (s : SysState n m) (i : Fin n) : List (Event n) :=
  Event.acquire i ::
    ((if activeState (s.procs i).state then [Event.print (procRow s (s.procs i))]
      else []) ++ [Event.release i])

/-- Event sequence of the table loop over a list of slot indices. -/
def slotsTrace (s : SysState n m) : List (Fin n) → List (Event n)
  | [] => []
  | i :: l => slotTrace s i ++ slotsTrace s l

/-- The full event sequence of one `sys_pstate` call: header print, the
table loop, the `total:` print, then the CPU-line prints. -/
def pstateTrace (s : SysState n m) : List (Event n) :=
  Event.print "pid\tstate\t\tname\tparent" ::
    (slotsTrace s (List.finRange n) ++
      (Event.print ("total: " ++ toString (procPass s).1) ::
        (List.finRange m).map (fun i => Event.print (cpuLine s i))))

/-- The string `line` is printed while the lock of slot `i` is held in trace `t`: an
`acquire i` occurs, the print occurs later, a `release i` occurs later
still, and no `release i` intervenes between the acquire and that release
(so the lock is continuously held across the print). -/
def printedWhileLocked (t : List (Event n)) (i : Fin n) (line : String) : Prop :=
  ∃ t1 t2 t3 t4 : List (Event n),
    t = t1 ++ Event.acquire i ::
          (t2 ++ Event.print line :: (t3 ++ Event.release i :: t4)) ∧
      Event.release i ∉ t2 ∧ Event.release i ∉ t3

/-- The syscall modelled with explicit state passing: `sys_pstate` only
reads the table and the CPU array (the source contains no store to either),
so the post-state equals the pre-state and the printed lines and return
value are those of `sys_pstate`. -/
def report (s : SysState n m) : SysState n m × (List String × Nat) :=
  (s, sys_pstate s)

/-! ### Concrete example states -/

/-- Slot contents of the one-slot example state: the init process,
runnable, with a null parent pointer. -/
def initProc : Proc 1 :=
  { pid := 1, state := ProcState.RUNNABLE, name := "init", parent := none }

/-- A one-slot, one-CPU state: only init, the CPU idle (scenario A of the
spec). -/
def s0 : SysState 1 1 :=
  { procs := fun _ => initProc, cpus := fun _ => none }

/-- Process table of the four-slot example state: init (runnable), sh
(sleeping, child of slot 0), pi (running, child of slot 1), and an unused
slot. -/
def sBprocs : Fin 4 → Proc 4 :=
  ![{ pid := 1, state := ProcState.RUNNABLE, name := "init", parent := none },
    { pid := 2, state := ProcState.SLEEPING, name := "sh", parent := some 0 },
    { pid := 3, state := ProcState.RUNNING, name := "pi", parent := some 1 },
    { pid := 0, state := ProcState.UNUSED, name := "", parent := none }]

/-- A four-slot, two-CPU state: init, sh, pi and an unused slot; CPU 0 runs
slot 2 (pid 3), CPU 1 is idle (scenario B of the spec). -/
def sB : SysState 4 2 :=
  { procs := sBprocs, cpus := ![some 2, none] }

/-! ### Helper lemmas -/

/-- Characterisation of the table loop: starting from accumulator
`(c, rows)`, the fold over any index list appends one row per index passing
the active filter and adds the number of such indices to the counter. -/
lemma foldl_passStep (s : SysState n m) (l : List (Fin n)) (c : Nat) (rows : List String) :
    l.foldl (passStep s) (c, rows) =
      (c + (l.filter (fun i => activeState (s.procs i).state)).length,
        rows ++ (l.filter (fun i => activeState (s.procs i).state)).map
          (fun i => procRow s (s.procs i))) := by
  induction l generalizing c rows with
  | nil => simp
  | cons a l ih =>
    cases h : activeState (s.procs a).state with
    | true =>
      simp [List.foldl_cons, passStep, h, ih, List.filter_cons, Nat.add_comm,
        Nat.add_assoc, Nat.add_left_comm]
    | false =>
      simp [List.foldl_cons, passStep, h, ih, List.filter_cons]

/-- The table pass returns the active slot count and one row per active
slot, in slot order. -/
lemma procPass_eq (s : SysState n m) :
    procPass s =
      ((activeIdx s).length, (activeIdx s).map (fun i => procRow s (s.procs i))) := by
  simpa [procPass, activeIdx] using foldl_passStep s (List.finRange n) 0 []

/-- The loop trace over a concatenation of index lists is the concatenation
of the loop traces. -/
lemma slotsTrace_append (s : SysState n m) (l1 l2 : List (Fin n)) :
    slotsTrace s (l1 ++ l2) = slotsTrace s l1 ++ slotsTrace s l2 := by
  induction l1 with
  | nil => simp [slotsTrace]
  | cons a l ih => simp [slotsTrace, ih]

/-- An idle CPU line is never equal to a running-process CPU line for the
same index, whatever pid string the latter carries. -/
lemma idle_ne_running (x y : String) :
    "cpu " ++ x ++ ": idle" ≠ "cpu " ++ x ++ ": running process " ++ y := by
  intro h
  have h3 := congrArg String.length h
  have e1 : (": idle" : String).length = 6 := rfl
  have e2 : (": running process " : String).length = 18 := rfl
  simp [String.length_append, e1, e2] at h3
  omega

/-! ### Claims -/

/-- Claim C1: the count printed on the `total:` line equals exactly the
number of process rows printed above it — the counter is incremented iff a
row is emitted, so it is never off by one and never counts a filtered-out
slot. -/
theorem total_line_counts_rows (s : SysState n m) :
    (sys_pstate s).1 =
      "pid\tstate\t\tname\tparent" ::
        ((procPass s).2 ++
          (("total: " ++ toString (procPass s).2.length) ::
            (List.finRange m).map (cpuLine s))) := by
  simp [sys_pstate, procPass_eq]

/-- Claim C2: for every process entry with pid 1, the parent label is the
fixed literal `(init)`, whatever the stored parent reference is, and the
parent pointer of that entry is never dereferenced (the label does not
depend on it). -/
theorem init_parent_label (s : SysState n m) (p : Proc n) (h : p.pid = 1) :
    parent_name s p = "(init)" ∧
      ∀ q : Option (Fin n), parent_name s { p with parent := q } = "(init)" :=
  ⟨by simp [parent_name, h], fun q => by simp [parent_name, h]⟩

/-- Witness for claim C2: the init entry of the one-slot state has pid 1 and
gets parent label `(init)`. -/
theorem init_parent_label_witness :
    initProc.pid = 1 ∧ parent_name s0 initProc = "(init)" :=
  ⟨rfl, (init_parent_label s0 initProc rfl).1⟩

/-- Claim C3: a table slot whose state is not in
SLEEPING/RUNNABLE/RUNNING (UNUSED and ZOMBIE included) contributes no row
and is not included in the total count: the rows are exactly one per active
slot and the count is the number of active slots. -/
theorem inactive_slot_not_reported (s : SysState n m) (i : Fin n)
    (h : activeState (s.procs i).state = false) :
    i ∉ activeIdx s ∧
      (procPass s).1 = (activeIdx s).length ∧
      (procPass s).2 = (activeIdx s).map (fun j => procRow s (s.procs j)) := by
  refine ⟨?_, by simp [procPass_eq], by simp [procPass_eq]⟩
  simp [activeIdx, List.mem_filter, h]

/-- Witness for claim C3: slot 3 of the four-slot state is UNUSED, hence
not among the reported slots. -/
theorem inactive_slot_not_reported_witness :
    activeState ((sB.procs 3).state) = false ∧
      ((3 : Fin 4) ∉ activeIdx sB ∧
        (procPass sB).1 = (activeIdx sB).length ∧
        (procPass sB).2 = (activeIdx sB).map (fun j => procRow sB (sB.procs j))) :=
  ⟨by decide, inactive_slot_not_reported sB 3 (by decide)⟩

/-- Claim C4: each CPU index yields exactly one line; the line is the idle
line iff the current-process reference of the descriptor is null, and when
the reference is non-null the line is the running line carrying the pid
read from the referenced process entry. -/
theorem cpu_line_cases (s : SysState n m) (i : Fin m) :
    (cpuLine s i = "cpu " ++ toString i.val ++ ": idle" ↔ s.cpus i = none) ∧
      (∀ j, s.cpus i = some j →
        cpuLine s i = "cpu " ++ toString i.val ++ ": running process " ++
          toString (s.procs j).pid) ∧
      ((List.finRange m).map (cpuLine s)).length = m := by
  refine ⟨⟨?_, ?_⟩, ?_, by simp⟩
  · intro h
    cases hc : s.cpus i with
    | none => rfl
    | some j =>
      have hr : cpuLine s i =
          "cpu " ++ toString i.val ++ ": running process " ++ toString (s.procs j).pid := by
        simp [cpuLine, hc]
      exact absurd (h.symm.trans hr) (idle_ne_running _ _)
  · intro h; simp [cpuLine, h]
  · intro j h; simp [cpuLine, h]

/-- Witness for claim C4: CPU 0 of the four-slot state references slot 2,
so its line is the running line with pid 3 read from that entry. -/
theorem cpu_line_cases_witness :
    sB.cpus 0 = some 2 ∧
      cpuLine sB 0 = "cpu " ++ toString (0 : Fin 2).val ++ ": running process " ++
        toString (sB.procs 2).pid :=
  ⟨by decide, (cpu_line_cases sB 0).2.1 2 (by decide)⟩

/-- Claim C5: for an active non-root entry the parent reference is used
only behind a null check — a non-null parent gives the name field of the
parent entry, a null parent gives the placeholder `???`; a null reference
is never dereferenced (the null branch does not read through the
pointer). -/
theorem nonroot_parent_resolution (s : SysState n m) (p : Proc n) (h : p.pid ≠ 1) :
    (∀ j, p.parent = some j → parent_name s p = (s.procs j).name) ∧
      (p.parent = none → parent_name s p = "???") :=
  ⟨fun j hj => by simp [parent_name, h, hj], fun hn => by simp [parent_name, h, hn]⟩

/-- Witness for claim C5: the sh entry (pid 2, parent slot 0) gets as
parent label the name of slot 0. -/
theorem nonroot_parent_resolution_witness :
    (sB.procs 1).pid ≠ 1 ∧ parent_name sB (sB.procs 1) = (sB.procs 0).name :=
  ⟨by decide, (nonroot_parent_resolution sB (sB.procs 1) (by decide)).1 0 (by decide)⟩

/-- Claim C6: the output is exactly a header line, then one row
`<pid>\t<state>\t\t<name>\t<parent>` per active slot in slot order, then
`total: <count>` with the count equal to the number of rows, then one line
per CPU in index order. -/
theorem output_structure (s : SysState n m) :
    (sys_pstate s).1 = specReportLines s := by
  simp [sys_pstate, specReportLines, procPass_eq]

/-- Counterexample to claim C7 as stated: in the one-slot state the row of
slot 0 is printed strictly between `acquire` and `release` of the lock of
slot 0 — the reporter does perform the output of the row while still
holding the lock, contrary to the claim. -/
theorem row_print_inside_lock_cex :
    printedWhileLocked (pstateTrace s0) 0 (procRow s0 (s0.procs 0)) := by
  refine ⟨[Event.print "pid\tstate\t\tname\tparent"], [], [],
    [Event.print "total: 1", Event.print "cpu 0: idle"], ?_, by simp, by simp⟩
  decide

/-- Claim C7, amended: the fields of a row are read and the row is printed
while the lock of the owning slot is held; the lock is released only after
the output of the row, not before. -/
theorem row_printed_under_lock (s : SysState n m) (i : Fin n)
    (h : activeState (s.procs i).state = true) :
    printedWhileLocked (pstateTrace s) i (procRow s (s.procs i)) := by
  obtain ⟨l1, l2, hl⟩ := List.append_of_mem (List.mem_finRange i)
  refine ⟨Event.print "pid\tstate\t\tname\tparent" :: slotsTrace s l1, [], [],
    slotsTrace s l2 ++
      (Event.print ("total: " ++ toString (procPass s).1) ::
        (List.finRange m).map (fun k => Event.print (cpuLine s k))),
    ?_, by simp, by simp⟩
  rw [pstateTrace, hl, slotsTrace_append]
  simp [slotsTrace, slotTrace, h, List.append_assoc]

/-- Witness for the amended claim C7: the pi entry (slot 2) of the
four-slot state is RUNNING and its row is printed under the lock of
slot 2. -/
theorem row_printed_under_lock_witness :
    activeState ((sB.procs 2).state) = true ∧
      printedWhileLocked (pstateTrace sB) 2 (procRow sB (sB.procs 2)) :=
  ⟨by decide, row_printed_under_lock sB 2 (by decide)⟩

/-- Claim C8: invoking the report operation twice in succession on the same
unchanged state yields identical output both times — the output is a
deterministic function of the state, and the operation does not mutate the
state it reads. -/
theorem repeated_report_identical (s : SysState n m) :
    ((report (report s).1).2).1 = ((report s).2).1 := rfl

/-- Claim C9: the report operation terminates with work bounded by the
fixed table capacity `n` and CPU count `m` — the whole output has at most
`2 + n + m` lines — and returns to the caller without surfacing any error
(return value 0). -/
theorem report_terminates_bounded (s : SysState n m) :
    (sys_pstate s).2 = 0 ∧ (sys_pstate s).1.length ≤ 2 + n + m := by
  refine ⟨rfl, ?_⟩
  have hle : (activeIdx s).length ≤ n := by
    calc (activeIdx s).length ≤ (List.finRange n).length :=
          List.length_filter_le _ _
      _ = n := List.length_finRange n
  simp [sys_pstate, procPass_eq]
  omega

/-- Claim C10: the status code returned to the caller is exactly 0 for
every state of the table and CPU array. -/
theorem report_returns_zero (s : SysState n m) : (sys_pstate s).2 = 0 := rfl

end Pstate

